import Mathlib

/-!
Shallow embedding of the attribution / normalization / channel-mapping /
metrics core of the hubspot-utm-governance-cac-engine repository.

Modelling conventions:
* JavaScript numbers are modelled as real numbers (`ℝ`) where weights,
  revenue and costs flow; priorities are `Int`.
* Timestamps are modelled as integer milliseconds (the code stores ISO
  strings and converts with `new Date(...).getTime()`; the round trip is
  the identity on the millisecond value).  Date strings that are only
  compared lexicographically (channel-cost ranges) stay `String`.
* The in-memory `Map`-based DataStore is modelled as lists in insertion
  order (a JS `Map` preserves insertion order; `set` with a fresh key
  appends).  `Array.prototype.sort` with a numeric comparator is stable,
  so it is modelled by the stable `List.insertionSort`.
* `randomUUID()` and `new Date()` are modelled as explicit parameters
  (`idGen : Nat → String`, `now : Int`).
* The JS `RegExp` engine used by the `regex` match type of normalization
  rules is modelled by an ambient parameter `rt : String → String → Bool`
  (pattern, value; a compile failure that the code catches and treats as
  non-match is folded into the function).  Wildcard patterns of the
  channel mapper are compiled by the code itself into a concrete regex
  shape (escaped literals joined by `.*`, anchored), whose language is
  modelled exactly by `starMatch` below.
* JS string lowercasing/uppercasing is modelled on ASCII (`Char.toLower`).
-/

namespace Engine

/-- JS whitespace class used by `trim` and the regex class `\s`. -/
def isJsWs (c : Char) : Bool :=
  c = ' ' || c = '\t' || c = '\n' || (c = Char.ofNat 0x0B) || (c = Char.ofNat 0x0C) ||
  c = '\r' || (c = Char.ofNat 0xA0) || (c = Char.ofNat 0x1680) ||
  (0x2000 ≤ c.toNat && c.toNat ≤ 0x200A) || (c = Char.ofNat 0x2028) ||
  (c = Char.ofNat 0x2029) || (c = Char.ofNat 0x202F) || (c = Char.ofNat 0x205F) ||
  (c = Char.ofNat 0x3000) || (c = Char.ofNat 0xFEFF)

/-- Character class `[a-z0-9_-]` kept by the cleanup step. -/
def allowedChar (c : Char) : Bool :=
  ('a' ≤ c && c ≤ 'z') || ('0' ≤ c && c ≤ '9') || c = '_' || c = '-'

/-- ASCII lowercasing, modelling JS `toLowerCase` (via the character list so
that kernel reduction works; JS handles full Unicode, the repository's values
are ASCII). -/
def asciiLower (s : String) : String :=
  ⟨s.toList.map Char.toLower⟩

/-- Substring test: JS `String.prototype.includes`. -/
def containsSub (needle hay : String) : Bool :=
  hay.toList.tails.any (fun t => needle.toList.isPrefixOf t)

/-- Split a character list at every separator character (empty pieces kept),
modelling JS `split`. -/
def splitOnChar (isSep : Char → Bool) : List Char → List (List Char)
  | [] => [[]]
  | c :: rest =>
    if isSep c then [] :: splitOnChar isSep rest
    else
      match splitOnChar isSep rest with
      | p :: ps => (c :: p) :: ps
      | [] => [[c]]

/-- Join character lists with a separator, modelling JS `join`. -/
def joinWith (sep : List Char) : List (List Char) → List Char
  | [] => []
  | [x] => x
  | x :: xs => x ++ sep ++ joinWith sep xs

/-- Truthiness of a JS optional string (`undefined` and `""` are falsy). -/
def truthyOpt (v : Option String) : Bool :=
  match v with
  | none => false
  | some s => !(s == "")

/-- The five UTM fields. -/
inductive UTMField
  | utm_source | utm_medium | utm_campaign | utm_term | utm_content
deriving DecidableEq, Repr

/-- UTM parameters: five optional text fields. -/
structure UTMParams where
  utm_source : Option String := none
  utm_medium : Option String := none
  utm_campaign : Option String := none
  utm_term : Option String := none
  utm_content : Option String := none
deriving DecidableEq, Repr

/-- Field lookup, modelling `params[field]`. -/
def getField (p : UTMParams) : UTMField → Option String
  | .utm_source => p.utm_source
  | .utm_medium => p.utm_medium
  | .utm_campaign => p.utm_campaign
  | .utm_term => p.utm_term
  | .utm_content => p.utm_content

/-- Field update, modelling `params[field] = v`. -/
def setField (p : UTMParams) (f : UTMField) (v : String) : UTMParams :=
  match f with
  | .utm_source => { p with utm_source := some v }
  | .utm_medium => { p with utm_medium := some v }
  | .utm_campaign => { p with utm_campaign := some v }
  | .utm_term => { p with utm_term := some v }
  | .utm_content => { p with utm_content := some v }

/-- Match types of a normalization rule. -/
inductive MatchType
  | exact | contains | startsWith | endsWith | regex
deriving DecidableEq, Repr

/-- A normalization rule (models/types.ts `NormalizationRuleSchema`). -/
structure NormalizationRule where
  id : String
  field : UTMField
  matchType : MatchType
  matchValue : String
  normalizedValue : String
  priority : Int
  isActive : Bool
deriving DecidableEq, Repr

/-- A source mapping (models/types.ts `SourceMappingSchema`). -/
structure SourceMapping where
  id : String
  utmSource : String
  utmMedium : Option String := none
  source : String
  sourceDetail : String
  channel : String
  priority : Int
  isActive : Bool
deriving DecidableEq, Repr

/-- Cost reporting period. -/
inductive Period
  | daily | weekly | monthly
deriving DecidableEq, Repr

/-- A channel cost entry (models/types.ts `ChannelCostSchema`). -/
structure ChannelCost where
  id : String
  channel : String
  source : Option String := none
  sourceDetail : Option String := none
  cost : ℝ
  period : Period
  startDate : String
  endDate : String
  currency : String := "USD"

/-- A stored touchpoint (models/types.ts `UTMRecordSchema`). -/
structure UTMRecord where
  id : String
  contactId : Option String := none
  dealId : Option String := none
  originalParams : UTMParams
  normalizedParams : UTMParams
  source : String
  sourceDetail : String
  channel : String
  timestamp : Int
  revenue : ℝ := 0

/-- The four attribution models. -/
inductive AttributionModel
  | first_touch | last_touch | linear | time_decay
deriving DecidableEq, Repr

/-- An attribution event (models/types.ts `AttributionEventSchema`). -/
structure AttributionEvent where
  id : String
  contactId : String
  dealId : Option String := none
  utmRecordId : String
  channel : String
  source : String
  sourceDetail : String
  attributionModel : AttributionModel
  attributionWeight : ℝ
  revenue : ℝ := 0
  timestamp : Int

/-- Attribution configuration (services/attribution.ts `AttributionConfig`). -/
structure AttributionConfig where
  model : AttributionModel
  timeDecayHalfLife : Option ℝ := none

/-- The in-memory data store (models/store.ts); the JS `Map`s become lists
in insertion order. -/
structure DataStore where
  normalizationRules : List NormalizationRule := []
  sourceMappings : List SourceMapping := []
  channelCosts : List ChannelCost := []
  utmRecords : List UTMRecord := []
  attributionEvents : List AttributionEvent := []

/-- Ordering used by `getAllNormalizationRules`: descending priority
(`(a, b) => b.priority - a.priority`). -/
def rulePrioGe (a b : NormalizationRule) : Prop := b.priority ≤ a.priority

instance : DecidableRel rulePrioGe := fun a b => Int.decLe b.priority a.priority

/-- Ordering used by `getAllSourceMappings`: descending priority. -/
def mapPrioGe (a b : SourceMapping) : Prop := b.priority ≤ a.priority

instance : DecidableRel mapPrioGe := fun a b => Int.decLe b.priority a.priority

/-- Ordering used by `getUTMRecordsByContact`: ascending timestamp. -/
def tsLe (a b : UTMRecord) : Prop := a.timestamp ≤ b.timestamp

instance : DecidableRel tsLe := fun a b => Int.decLe a.timestamp b.timestamp

instance : IsTotal UTMRecord tsLe := ⟨fun a b => Int.le_total a.timestamp b.timestamp⟩

instance : IsTrans UTMRecord tsLe := ⟨fun _ _ _ h h' => Int.le_trans h h'⟩

/-- store.ts `getAllNormalizationRules`: active rules, sorted by descending
priority with the stable JS sort. -/
def getAllNormalizationRules (s : DataStore) : List NormalizationRule :=
  List.insertionSort rulePrioGe (s.normalizationRules.filter (·.isActive))

/-- store.ts `getAllSourceMappings`: active mappings, descending priority. -/
def getAllSourceMappings (s : DataStore) : List SourceMapping :=
  List.insertionSort mapPrioGe (s.sourceMappings.filter (·.isActive))

/-- store.ts `getUTMRecordsByContact`: records of the contact, ascending
timestamp. -/
def getUTMRecordsByContact (s : DataStore) (contactId : String) : List UTMRecord :=
  List.insertionSort tsLe (s.utmRecords.filter (fun r => r.contactId == some contactId))

/-- store.ts `getAttributionEventsByContact`. -/
def getAttributionEventsByContact (s : DataStore) (contactId : String) : List AttributionEvent :=
  s.attributionEvents.filter (fun e => e.contactId == contactId)

/-- store.ts `getAttributionEventsByChannel`. -/
def getAttributionEventsByChannel (s : DataStore) (channel : String) : List AttributionEvent :=
  s.attributionEvents.filter (fun e => e.channel == channel)

/-- store.ts `getChannelCostsByChannel`. -/
def getChannelCostsByChannel (s : DataStore) (channel : String) : List ChannelCost :=
  s.channelCosts.filter (fun c => c.channel == channel)

/-- store.ts `getChannelCostsInRange`: lexicographic comparison of the ISO
date strings, as JS `>=` / `<=` on strings. -/
def getChannelCostsInRange (s : DataStore) (startDate endDate : String) : List ChannelCost :=
  s.channelCosts.filter (fun c => !(decide (c.startDate < startDate)) && !(decide (endDate < c.endDate)))

/-- store.ts `addAttributionEvent`: `Map.set` keyed by `event.id` (replaces
in place on key collision, else appends). -/
def addAttributionEvent (s : DataStore) (e : AttributionEvent) : DataStore :=
  if s.attributionEvents.any (fun x => x.id == e.id) then
    { s with attributionEvents := s.attributionEvents.map (fun x => if x.id == e.id then e else x) }
  else
    { s with attributionEvents := s.attributionEvents ++ [e] }

/-- normalization.ts `matchesRule`; `rt` models the JS RegExp engine used
by the `regex` match type (compile failure caught as non-match). -/
def matchesRule (rt : String → String → Bool) (value : String) (rule : NormalizationRule) : Bool :=
  let lowerValue := asciiLower value
  let lowerMatch := asciiLower rule.matchValue
  match rule.matchType with
  | .exact => lowerValue == lowerMatch
  | .contains => containsSub lowerMatch lowerValue
  | .startsWith => lowerMatch.toList.isPrefixOf lowerValue.toList
  | .endsWith => lowerMatch.toList.isSuffixOf lowerValue.toList
  | .regex => rt rule.matchValue value

/-- The rule-application loop of normalization.ts `normalize`: for each rule
in order, if the target field's current value is truthy and matches, the
field is overwritten with the rule's normalized value; iteration always
continues with the updated parameters. -/
def applyRulesLoop (rt : String → String → Bool) : List NormalizationRule → UTMParams → UTMParams
  | [], p => p
  | rule :: rest, p =>
    let value := getField p rule.field
    applyRulesLoop rt rest
      (if truthyOpt value && matchesRule rt (value.getD "") rule then
        setField p rule.field rule.normalizedValue
      else p)

/-- JS `value.replace(/\s+/g, '_')`: each maximal whitespace run becomes a
single underscore (`inWs` records that the current run already emitted one). -/
def collapseWsAux : Bool → List Char → List Char
  | _, [] => []
  | inWs, c :: rest =>
    if isJsWs c then
      if inWs then collapseWsAux true rest else '_' :: collapseWsAux true rest
    else c :: collapseWsAux false rest

/-- JS `trim`: strip leading and trailing whitespace. -/
def trimJs (l : List Char) : List Char :=
  ((l.dropWhile isJsWs).reverse.dropWhile isJsWs).reverse

/-- The per-value cleanup of normalization.ts `cleanupParams`:
lowercase, trim, collapse whitespace runs to `_`, drop characters outside
`[a-z0-9_-]`. -/
def cleanValue (v : String) : String :=
  ⟨(collapseWsAux false (trimJs (v.toList.map Char.toLower))).filter allowedChar⟩

/-- One field of normalization.ts `cleanupParams`: a truthy value is
cleaned, a falsy (absent or empty) one is dropped. -/
def cleanOptField (v : Option String) : Option String :=
  match v with
  | some s => if s == "" then none else some (cleanValue s)
  | none => none

/-- normalization.ts `cleanupParams`: only truthy fields are carried over,
each cleaned with `cleanValue`. -/
def cleanupParams (p : UTMParams) : UTMParams :=
  { utm_source := cleanOptField p.utm_source
    utm_medium := cleanOptField p.utm_medium
    utm_campaign := cleanOptField p.utm_campaign
    utm_term := cleanOptField p.utm_term
    utm_content := cleanOptField p.utm_content }

/-- normalization.ts `normalize`: copy the input, apply every active rule in
descending priority order, then clean up. -/
def normalize (rt : String → String → Bool) (s : DataStore) (params : UTMParams) : UTMParams :=
  cleanupParams (applyRulesLoop rt (getAllNormalizationRules s) params)

/-- Modelled from the spec (§4.1/§9): the reference normalization semantics
described as a non-short-circuiting left fold over the priority-sorted rule
list, each matching rule overwriting its target field's current value. -/
def normalizeRuleFold (rt : String → String → Bool) (rules : List NormalizationRule)
    (params : UTMParams) : UTMParams :=
  rules.foldl
    (fun acc rule =>
      if truthyOpt (getField acc rule.field) &&
          matchesRule rt ((getField acc rule.field).getD "") rule then
        setField acc rule.field rule.normalizedValue
      else acc)
    params

/-- Characters the JS regex `.` does not match (line terminators); the `.*`
gaps produced from `*` wildcards match exactly the strings free of them. -/
def noLineTerm (c : Char) : Bool :=
  !(c = '\n' || c = '\r' || c = Char.ofNat 0x2028 || c = Char.ofNat 0x2029)

/-- Language of the regex that sourceMapping.ts `matchesPattern` compiles
from a wildcard pattern: the pattern's literal segments (split on `*`, all
regex metacharacters escaped) in order, separated by `.*` gaps, anchored at
both ends. -/
def starMatch : List (List Char) → List Char → Bool
  | [], cs => cs.isEmpty
  | [seg], cs => cs == seg
  | seg :: seg2 :: rest, cs =>
    (cs.take seg.length == seg) &&
      ((List.range (cs.length - seg.length + 1)).any fun k =>
        ((cs.drop seg.length).take k).all noLineTerm &&
        starMatch (seg2 :: rest) ((cs.drop seg.length).drop k))

/-- sourceMapping.ts `matchesPattern`: wildcard patterns are compiled to an
anchored regex (`*` ↦ `.*`, the rest escaped); starless patterns use plain
string equality. -/
def matchesPattern (value pattern : String) : Bool :=
  let lowerPattern := asciiLower pattern
  if lowerPattern.toList.any (· == '*') then
    starMatch (splitOnChar (· == '*') lowerPattern.toList) value.toList
  else value == lowerPattern

/-- Result of the channel mapper (sourceMapping.ts `SourceMappingResult`). -/
structure SourceMappingResult where
  source : String
  sourceDetail : String
  channel : String
  matchedMapping : Option SourceMapping
deriving DecidableEq, Repr

/-- The mapping-selection loop of sourceMapping.ts `mapToSource`: the first
mapping whose source pattern matches and whose medium pattern, when a
truthy medium is specified, also matches; a source-only hit whose medium
constraint fails does not return — iteration continues. -/
def mapLoop (src med : String) : List SourceMapping → Option SourceMapping
  | [] => none
  | m :: rest =>
    if matchesPattern src m.utmSource then
      if truthyOpt m.utmMedium then
        if matchesPattern med (m.utmMedium.getD "") then some m else mapLoop src med rest
      else some m
    else mapLoop src med rest

/-- Combined acceptance test of one mapping, as used to state the
first-match property of `mapToSource`. -/
def mappingMatches (src med : String) (m : SourceMapping) : Bool :=
  matchesPattern src m.utmSource &&
    (if truthyOpt m.utmMedium then matchesPattern med (m.utmMedium.getD "") else true)

/-- sourceMapping.ts `formatSourceName`: split on `_`/`-`, capitalize each
piece, join with spaces. -/
def formatSourceName (name : String) : String :=
  ⟨joinWith [' ']
    ((splitOnChar (fun c => c == '_' || c == '-') name.toList).map fun w =>
      match w with
      | [] => []
      | c :: rest => Char.toUpper c :: rest)⟩

/-- sourceMapping.ts `getDefaultMapping`: heuristic fallback classification
when no mapping matches. -/
def getDefaultMapping (params : UTMParams) : SourceMappingResult :=
  let rawSource := asciiLower (params.utm_source.getD "")
  let utmSource := if rawSource == "" then "unknown" else rawSource
  let utmMedium := asciiLower (params.utm_medium.getD "")
  let channel :=
    if containsSub "organic" utmMedium then
      if containsSub "google" utmSource || containsSub "bing" utmSource then
        "Organic Search"
      else "Organic Social"
    else if containsSub "paid" utmMedium || containsSub "cpc" utmMedium ||
        containsSub "ppc" utmMedium then
      if containsSub "google" utmSource || containsSub "bing" utmSource then
        "Paid Search"
      else "Paid Social"
    else if containsSub "email" utmMedium || containsSub "email" utmSource then
      "Email"
    else if containsSub "social" utmMedium ||
        (utmSource == "facebook" || utmSource == "twitter" || utmSource == "linkedin" ||
          utmSource == "instagram") then
      "Social"
    else if utmSource == "direct" ||
        (!(truthyOpt params.utm_source) && !(truthyOpt params.utm_medium)) then
      "Direct"
    else if containsSub "referral" utmMedium then "Referral"
    else "Other"
  { source := formatSourceName utmSource
    sourceDetail := if !(utmMedium == "") then formatSourceName utmMedium else "Unknown"
    channel := channel
    matchedMapping := none }

/-- sourceMapping.ts `mapToSource`: first satisfying mapping in descending
priority order wins; otherwise the heuristic fallback. -/
def mapToSource (s : DataStore) (params : UTMParams) : SourceMappingResult :=
  let utmSource := asciiLower (params.utm_source.getD "")
  let utmMedium := asciiLower (params.utm_medium.getD "")
  match mapLoop utmSource utmMedium (getAllSourceMappings s) with
  | some m =>
    { source := m.source, sourceDetail := m.sourceDetail, channel := m.channel,
      matchedMapping := some m }
  | none => getDefaultMapping params

/-- attribution.ts `firstTouchWeights`: zero vector with a leading 1. -/
def firstTouchWeights : Nat → List ℝ
  | 0 => []
  | n + 1 => 1 :: List.replicate n 0

/-- attribution.ts `lastTouchWeights`: zero vector with a trailing 1. -/
def lastTouchWeights : Nat → List ℝ
  | 0 => []
  | n + 1 => List.replicate n 0 ++ [1]

/-- attribution.ts `linearWeights`: every weight `1/n`. -/
noncomputable def linearWeights (n : Nat) : List ℝ :=
  if n = 0 then [] else List.replicate n ((1 : ℝ) / n)

/-- One raw time-decay weight: `0.5 ^ (ageMs / halfLifeMs)`, the age in
milliseconds measured from the evaluation time `now` and the half-life
converted from days (`halfLifeDays * 24 * 60 * 60 * 1000`). -/
noncomputable def rawDecay (halfLifeDays : ℝ) (now : Int) (tp : UTMRecord) : ℝ :=
  (0.5 : ℝ) ^ ((((now - tp.timestamp : Int)) : ℝ) / (halfLifeDays * 24 * 60 * 60 * 1000))

/-- attribution.ts `timeDecayWeights`: raw weight `0.5 ^ (ageMs/halfLifeMs)`
with age from the evaluation time `now`, normalized by the raw sum. -/
noncomputable def timeDecayWeights (touchpoints : List UTMRecord) (halfLifeDays : ℝ)
    (now : Int) : List ℝ :=
  if touchpoints.length = 0 then []
  else
    let rawWeights := touchpoints.map (rawDecay halfLifeDays now)
    rawWeights.map (· / rawWeights.sum)

/-- JS `config.timeDecayHalfLife || 7`: an absent or zero (falsy) value
falls back to the default of 7 days. -/
noncomputable def effectiveHalfLife (h : Option ℝ) : ℝ :=
  match h with
  | none => 7
  | some v => if v = 0 then 7 else v

/-- attribution.ts `calculateWeights`: dispatch on the model. -/
noncomputable def calculateWeights (touchpoints : List UTMRecord) (config : AttributionConfig)
    (now : Int) : List ℝ :=
  match config.model with
  | .first_touch => firstTouchWeights touchpoints.length
  | .last_touch => lastTouchWeights touchpoints.length
  | .linear => linearWeights touchpoints.length
  | .time_decay => timeDecayWeights touchpoints (effectiveHalfLife config.timeDecayHalfLife) now

/-- The attribution event built for one touchpoint inside the emission loop
of `createAttribution`. -/
def mkEvent (id contactId : String) (dealId : Option String) (model : AttributionModel)
    (weight revenue : ℝ) (now : Int) (tp : UTMRecord) : AttributionEvent :=
  { id := id, contactId := contactId, dealId := dealId, utmRecordId := tp.id,
    channel := tp.channel, source := tp.source, sourceDetail := tp.sourceDetail,
    attributionModel := model, attributionWeight := weight, revenue := revenue,
    timestamp := now }

/-- The emission loop of attribution.ts `createAttribution`: one event per
touchpoint with strictly positive weight, each stored and collected;
non-positive weights are skipped.  `i` is the running touchpoint index
feeding the fresh-id supply (modelling `randomUUID`). -/
noncomputable def attributionLoop (contactId : String) (dealId : Option String) (revenue : ℝ)
    (model : AttributionModel) (now : Int) (idGen : Nat → String) :
    List (UTMRecord × ℝ) → Nat → DataStore → List AttributionEvent × DataStore
  | [], _, s => ([], s)
  | (tp, w) :: rest, i, s =>
    if 0 < w then
      let e := mkEvent (idGen i) contactId dealId model w revenue now tp
      let r := attributionLoop contactId dealId revenue model now idGen rest (i + 1)
        (addAttributionEvent s e)
      (e :: r.1, r.2)
    else attributionLoop contactId dealId revenue model now idGen rest (i + 1) s

/-- attribution.ts `createAttribution`: read the contact's touchpoints in
ascending timestamp order; if none, return empty without storing anything;
otherwise compute the weight vector and run the emission loop. -/
noncomputable def createAttribution (s : DataStore) (contactId : String) (dealId : Option String)
    (revenue : ℝ) (config : AttributionConfig) (now : Int) (idGen : Nat → String) :
    List AttributionEvent × DataStore :=
  let touchpoints := getUTMRecordsByContact s contactId
  if touchpoints.length = 0 then ([], s)
  else
    attributionLoop contactId dealId revenue config.model now idGen
      (touchpoints.zip (calculateWeights touchpoints config now)) 0 s

/-- The implied original revenue computed by attribution.ts
`recalculateAttribution` (line 160): sum of the events' stored revenues
divided by the sum of their weights. -/
noncomputable def impliedRevenue (events : List AttributionEvent) : ℝ :=
  (events.map (·.revenue)).sum / (events.map (·.attributionWeight)).sum

/-- JS `existingEvents.find(e => e.dealId)?.dealId`: the deal id of the
first event carrying a truthy one. -/
def findDealId (events : List AttributionEvent) : Option String :=
  (events.find? (fun e => truthyOpt e.dealId)).bind (·.dealId)

/-- attribution.ts `recalculateAttribution`: with no existing events,
return empty; otherwise re-invoke `createAttribution` on the unchanged
store with the reconstructed revenue and any found deal id. -/
noncomputable def recalculateAttribution (s : DataStore) (contactId : String)
    (newConfig : AttributionConfig) (now : Int) (idGen : Nat → String) :
    List AttributionEvent × DataStore :=
  let existingEvents := getAttributionEventsByContact s contactId
  if existingEvents.length = 0 then ([], s)
  else
    createAttribution s contactId (findDealId existingEvents) (impliedRevenue existingEvents)
      newConfig now idGen

/-- Modelled from the spec (§4.3): the implied original revenue the spec
ascribes to `recalculateAttribution`, `sum(revenue*weight) / sum(weight)`;
stated for comparison with the code's `impliedRevenue`. -/
noncomputable def specImpliedRevenue (events : List AttributionEvent) : ℝ :=
  (events.map (fun e => e.revenue * e.attributionWeight)).sum /
    (events.map (·.attributionWeight)).sum

/-- Filter options of the metrics service (attribution.ts
`MetricsCalculationOptions`). -/
structure MetricsCalculationOptions where
  startDate : String
  endDate : String
  channel : Option String := none
  source : Option String := none
  sourceDetail : Option String := none

/-- One dimension filter: rejects only when the option is truthy and the
value differs (`if (options.x && v !== options.x) return false`). -/
def dimOk (filter : Option String) (v : String) : Bool :=
  !(truthyOpt filter && !(v == filter.getD ""))

/-- Dimension filter against an optional record field (cost rows). -/
def dimOkOpt (filter : Option String) (v : Option String) : Bool :=
  !(truthyOpt filter && !(v == filter))

/-- attribution.ts `MetricsService.getTotalCosts`. -/
def getTotalCosts (s : DataStore) (o : MetricsCalculationOptions) : ℝ :=
  (((getChannelCostsInRange s o.startDate o.endDate).filter fun c =>
    dimOk o.channel c.channel && dimOkOpt o.source c.source &&
      dimOkOpt o.sourceDetail c.sourceDetail).map (·.cost)).sum

/-- attribution.ts `MetricsService.getAttributionEvents`; `parseDate`
models `new Date(string).getTime()` applied to the option bounds. -/
def getAttributionEvents (s : DataStore) (o : MetricsCalculationOptions)
    (parseDate : String → Int) : List AttributionEvent :=
  s.attributionEvents.filter fun e =>
    !(decide (e.timestamp < parseDate o.startDate)) &&
    !(decide (parseDate o.endDate < e.timestamp)) &&
    dimOk o.channel e.channel && dimOk o.source e.source &&
    dimOk o.sourceDetail e.sourceDetail

/-- attribution.ts `MetricsService.getTotalRevenue`: weighted revenue sum. -/
def getTotalRevenue (s : DataStore) (o : MetricsCalculationOptions)
    (parseDate : String → Int) : ℝ :=
  ((getAttributionEvents s o parseDate).map (fun e => e.revenue * e.attributionWeight)).sum

/-- attribution.ts `MetricsService.getConversions`: fractional conversion
count, the sum of attribution weights. -/
def getConversions (s : DataStore) (o : MetricsCalculationOptions)
    (parseDate : String → Int) : ℝ :=
  ((getAttributionEvents s o parseDate).map (·.attributionWeight)).sum

/-- attribution.ts `MetricsService.calculateCAC`: 0 when conversions = 0. -/
noncomputable def calculateCAC (s : DataStore) (o : MetricsCalculationOptions)
    (parseDate : String → Int) : ℝ :=
  let costs := getTotalCosts s o
  let conversions := getConversions s o parseDate
  if conversions = 0 then 0 else costs / conversions

/-- attribution.ts `MetricsService.calculateROI`: 0 when costs = 0. -/
noncomputable def calculateROI (s : DataStore) (o : MetricsCalculationOptions)
    (parseDate : String → Int) : ℝ :=
  let costs := getTotalCosts s o
  let revenue := getTotalRevenue s o parseDate
  if costs = 0 then 0 else ((revenue - costs) / costs) * 100

/-- attribution.ts `MetricsService.calculateROAS`: 0 when costs = 0. -/
noncomputable def calculateROAS (s : DataStore) (o : MetricsCalculationOptions)
    (parseDate : String → Int) : ℝ :=
  let costs := getTotalCosts s o
  let revenue := getTotalRevenue s o parseDate
  if costs = 0 then 0 else revenue / costs

/-- JS `[...new Set(l)]`: deduplication keeping first occurrences. -/
def firstUniq (l : List String) : List String :=
  l.foldl (fun acc x => if acc.contains x then acc else acc ++ [x]) []

/-- One channel's contribution to the apportioned CAC of
`getContactMetrics`: the JS loop adds `channelTotalCost * contactWeight /
totalWeight` only under the `channelEvents.length > 0` guard, so the guarded
term is 0 otherwise. -/
noncomputable def channelCACterm (s : DataStore) (contactEvents : List AttributionEvent)
    (channel : String) : ℝ :=
  let channelCosts := getChannelCostsByChannel s channel
  let channelEvents := getAttributionEventsByChannel s channel
  if 0 < channelEvents.length then
    let contactWeight :=
      ((contactEvents.filter (fun e => e.channel == channel)).map (·.attributionWeight)).sum
    let totalWeight := (channelEvents.map (·.attributionWeight)).sum
    let channelTotalCost := (channelCosts.map (·.cost)).sum
    channelTotalCost * contactWeight / totalWeight
  else 0

/-- Touchpoint summary row of `getContactMetrics`. -/
structure ContactTouchpoint where
  channel : String
  source : String
  sourceDetail : String
  timestamp : Int
  utmCampaign : Option String

/-- Result of `getContactMetrics`. -/
structure ContactMetrics where
  touchpoints : List ContactTouchpoint
  attributedRevenue : ℝ
  attributedCAC : ℝ

/-- attribution.ts `MetricsService.getContactMetrics`. -/
noncomputable def getContactMetrics (s : DataStore) (contactId : String) : ContactMetrics :=
  let utmRecords := getUTMRecordsByContact s contactId
  let attributionEvents := getAttributionEventsByContact s contactId
  { touchpoints := utmRecords.map fun r =>
      { channel := r.channel, source := r.source, sourceDetail := r.sourceDetail,
        timestamp := r.timestamp, utmCampaign := r.normalizedParams.utm_campaign }
    attributedRevenue :=
      (attributionEvents.map (fun e => e.revenue * e.attributionWeight)).sum
    attributedCAC :=
      (firstUniq (attributionEvents.map (·.channel))).foldl
        (fun acc ch => acc + channelCACterm s attributionEvents ch) 0 }

/-- Regex oracle used for concrete evaluations: no rule in the concrete
stores below uses the `regex` match type, so the constantly-false oracle is
adequate there. -/
def rtFalse : String → String → Bool := fun _ _ => false

/-- Fresh-id supply for concrete evaluations. -/
def idConst : Nat → String := fun _ => "new-id"

/-- An empty store. -/
def emptyStore : DataStore := {}

/-- Two exact rules on `utm_source` where the lower-priority rule matches
the higher-priority rule's output, demonstrating rule re-firing. -/
def demoRuleStore : DataStore :=
  { normalizationRules :=
      [ { id := "r1", field := .utm_source, matchType := .exact, matchValue := "a",
          normalizedValue := "b", priority := 10, isActive := true },
        { id := "r2", field := .utm_source, matchType := .exact, matchValue := "b",
          normalizedValue := "c", priority := 5, isActive := true } ] }

/-- A paid-search touchpoint of contact `c1` (earlier timestamp). -/
def tpPaid : UTMRecord :=
  { id := "utm-1", contactId := some "c1", originalParams := {}, normalizedParams := {},
    source := "Google Ads", sourceDetail := "Search", channel := "Paid Search",
    timestamp := 1000 }

/-- A paid-social touchpoint of contact `c1` (later timestamp). -/
def tpSocial : UTMRecord :=
  { id := "utm-2", contactId := some "c1", originalParams := {}, normalizedParams := {},
    source := "Facebook", sourceDetail := "Paid Social", channel := "Paid Social",
    timestamp := 2000 }

/-- Store holding the two touchpoints of `c1`, inserted newest first to
exercise the timestamp sort. -/
def sTouch : DataStore := { utmRecords := [tpSocial, tpPaid] }

/-- A half-weight attribution event of a 100-revenue conversion. -/
def evHalf1 : AttributionEvent :=
  { id := "e1", contactId := "c1", utmRecordId := "utm-1", channel := "Paid Search",
    source := "Google Ads", sourceDetail := "Search", attributionModel := .linear,
    attributionWeight := 0.5, revenue := 100, timestamp := 0 }

/-- The second half-weight event of the same conversion. -/
def evHalf2 : AttributionEvent :=
  { id := "e2", contactId := "c1", utmRecordId := "utm-2", channel := "Paid Social",
    source := "Facebook", sourceDetail := "Paid Social", attributionModel := .linear,
    attributionWeight := 0.5, revenue := 100, timestamp := 0 }

/-- Store for the recalculation counterexample: one touchpoint and the two
half-weight events of a single 100-revenue linear conversion. -/
def sRecalc : DataStore :=
  { utmRecords := [tpPaid], attributionEvents := [evHalf1, evHalf2] }

/-- A full-weight event in channel `x`. -/
def evFull : AttributionEvent :=
  { id := "e3", contactId := "c2", utmRecordId := "utm-3", channel := "x",
    source := "X", sourceDetail := "X", attributionModel := .last_touch,
    attributionWeight := 1, revenue := 50, timestamp := 0 }

/-- Store with a single full-weight event, for the metrics guards. -/
def sEvents : DataStore := { attributionEvents := [evFull] }

end Engine

namespace Engine

/-- Helper: the rule-application loop is the left fold of the per-rule
overwrite step. -/
theorem applyRulesLoop_eq_foldl (rt : String → String → Bool)
    (rules : List NormalizationRule) (params : UTMParams) :
    applyRulesLoop rt rules params = normalizeRuleFold rt rules params := by
  induction rules generalizing params with
  | nil => rfl
  | cons r rest ih =>
    simp only [applyRulesLoop, normalizeRuleFold, List.foldl_cons]
    exact ih _

/-- C2: normalization equals the non-short-circuiting fold over the active
rules in descending priority order — each rule matching its field's current
(possibly already rewritten) value overwrites it, with no early exit — and
on the two-rule demo store a lower-priority rule re-fires on the rewritten
value (`a` ↦ `b` ↦ `c`). -/
theorem c2_normalize_is_priority_fold :
    (∀ (rt : String → String → Bool) (s : DataStore) (params : UTMParams),
      normalize rt s params =
        cleanupParams (normalizeRuleFold rt (getAllNormalizationRules s) params)) ∧
    (normalize rtFalse demoRuleStore { utm_source := some "a" }).utm_source = some "c" := by
  constructor
  · intro rt s params
    unfold normalize
    rw [applyRulesLoop_eq_foldl]
  · decide

/-- C7 counterexample: the non-empty input value `"!!!"` contains no
characters from `[a-z0-9_-]`, so the cleanup carries `utm_source` in the
output as the empty string — the field is present but empty, contradicting
the claim that every present output field is non-empty. -/
theorem c7_present_empty_field_counterexample :
    (normalize rtFalse emptyStore { utm_source := some "!!!" }).utm_source = some "" := by
  decide

/-- C7 (amended): after rule application every truthy field is carried over
cleaned (lowercase, trim, whitespace runs to `_`, characters outside
`[a-z0-9_-]` removed) and absent/empty fields are dropped; every field
present in the output is a — possibly empty — string over `[a-z0-9_-]`. -/
theorem c7_cleanup_charset (rt : String → String → Bool) (s : DataStore)
    (params : UTMParams) (f : UTMField) :
    (∀ v, getField (normalize rt s params) f = some v → v.toList.all allowedChar) ∧
    (truthyOpt (getField (applyRulesLoop rt (getAllNormalizationRules s) params) f) = false →
      getField (normalize rt s params) f = none) ∧
    (∀ w, getField (applyRulesLoop rt (getAllNormalizationRules s) params) f = some w →
      truthyOpt (some w) = true →
      getField (normalize rt s params) f = some (cleanValue w)) := by
  unfold normalize
  generalize applyRulesLoop rt (getAllNormalizationRules s) params = mid
  have hget : getField (cleanupParams mid) f = cleanOptField (getField mid f) := by
    cases f <;> rfl
  rw [hget]
  generalize getField mid f = v
  have hchar : ∀ (w : String), (cleanValue w).toList.all allowedChar := by
    intro w
    simp only [cleanValue, List.all_eq_true]
    intro c hc
    exact (List.mem_filter.mp hc).2
  refine ⟨?_, ?_, ?_⟩
  · intro u hu
    cases v with
    | none => exact absurd hu (by simp [cleanOptField])
    | some w =>
      by_cases hw : w = ""
      · subst hw
        exact absurd hu (by simp [cleanOptField])
      · have : u = cleanValue w := by
          simp [cleanOptField, hw] at hu
          exact hu.symm
        rw [this]
        exact hchar w
  · intro h
    cases v with
    | none => rfl
    | some w =>
      have hw : w = "" := by simpa [truthyOpt] using h
      simp [cleanOptField, hw]
  · intro w hw hwt
    cases hw
    have hw : ¬ w = "" := by simpa [truthyOpt] using hwt
    simp only [cleanOptField]
    rw [if_neg (by simpa using hw)]

/-- Witness for C7 at the spec's own example: the truthy value
`"Summer Sale 2024"` survives rule application over the empty store and is
carried over as `cleanValue` of itself, which is `"summer_sale_2024"`. -/
theorem c7_cleanup_charset_witness :
    getField (applyRulesLoop rtFalse (getAllNormalizationRules emptyStore)
        { utm_source := some "Summer Sale 2024" }) UTMField.utm_source =
      some "Summer Sale 2024" ∧
    truthyOpt (some "Summer Sale 2024") = true ∧
    getField (normalize rtFalse emptyStore { utm_source := some "Summer Sale 2024" })
        UTMField.utm_source = some (cleanValue "Summer Sale 2024") ∧
    cleanValue "Summer Sale 2024" = "summer_sale_2024" := by
  refine ⟨by decide, by decide, ?_, by decide⟩
  exact (c7_cleanup_charset rtFalse emptyStore { utm_source := some "Summer Sale 2024" }
    UTMField.utm_source).2.2 "Summer Sale 2024" (by decide) (by decide)

/-- Helper: the mapping-selection loop is a first-match search with the
combined source-and-medium acceptance test. -/
theorem mapLoop_eq_find (src med : String) (l : List SourceMapping) :
    mapLoop src med l = l.find? (mappingMatches src med) := by
  induction l with
  | nil => rfl
  | cons m rest ih =>
    by_cases h1 : matchesPattern src m.utmSource
    · by_cases h2 : truthyOpt m.utmMedium
      · by_cases h3 : matchesPattern med (m.utmMedium.getD "")
        · simp [mapLoop, List.find?, mappingMatches, h1, h2, h3]
        · simp [mapLoop, List.find?, mappingMatches, h1, h2, h3, ih]
      · simp [mapLoop, List.find?, mappingMatches, h1, h2]
    · simp [mapLoop, List.find?, mappingMatches, h1, ih]

/-- C4: `mapToSource` returns the triple (and `matchedMapping`) of the
first mapping, in descending priority order, whose source pattern matches
the lowercased input source under the anchored wildcard semantics and whose
medium pattern — when the mapping specifies a truthy one — matches the
lowercased input medium; with no satisfying mapping it falls back to the
heuristic default.  First match wins: the search short-circuits. -/
theorem c4_mapToSource_first_match (s : DataStore) (params : UTMParams) :
    mapToSource s params =
      match (getAllSourceMappings s).find?
          (mappingMatches (asciiLower (params.utm_source.getD ""))
            (asciiLower (params.utm_medium.getD ""))) with
      | some m => { source := m.source, sourceDetail := m.sourceDetail, channel := m.channel,
                    matchedMapping := some m }
      | none => getDefaultMapping params := by
  unfold mapToSource
  simp only [mapLoop_eq_find]

/-- Helper: dividing every list entry by a constant divides the sum. -/
theorem sum_map_div (l : List ℝ) (c : ℝ) : (l.map (· / c)).sum = l.sum / c := by
  induction l with
  | nil => simp
  | cons x xs ih => simp [add_div, ih]

/-- Helper: a non-empty list of positive reals has a positive sum. -/
theorem sum_pos_of_forall_pos (l : List ℝ) (h : l ≠ []) (hp : ∀ x ∈ l, 0 < x) :
    0 < l.sum := by
  induction l with
  | nil => exact absurd rfl h
  | cons x xs ih =>
    rcases xs with _ | ⟨y, ys⟩
    · simpa using hp x (by simp)
    · have hs := ih (by simp) (fun z hz => hp z (List.mem_cons_of_mem _ hz))
      have hx := hp x (by simp)
      simp only [List.sum_cons]
      positivity

/-- Helper: the positivity filter drops every entry of a zero block. -/
theorem filter_pos_replicate_zero (m : Nat) :
    (List.replicate m (0 : ℝ)).filter (fun w => decide (0 < w)) = [] := by
  induction m with
  | zero => rfl
  | succ k ih => simp [List.replicate, List.filter_cons, ih]

/-- Helper: every raw time-decay weight is positive (for any half-life and
any touchpoint age, including negative ages of future-dated touchpoints). -/
theorem rawDecay_pos (h : ℝ) (now : Int) (tp : UTMRecord) : 0 < rawDecay h now tp :=
  Real.rpow_pos_of_pos (by norm_num) _

/-- Helper: with a positive half-life, the raw decay weight is monotone in
the touchpoint timestamp (an older touchpoint gets at most the weight of a
more recent one). -/
theorem rawDecay_mono (h : ℝ) (hp : 0 < h) (now : Int) (a b : UTMRecord)
    (hts : a.timestamp ≤ b.timestamp) : rawDecay h now a ≤ rawDecay h now b := by
  unfold rawDecay
  have hms : (0 : ℝ) < h * 24 * 60 * 60 * 1000 := by positivity
  refine Real.rpow_le_rpow_of_exponent_ge (by norm_num) (by norm_num) ?_
  rw [div_le_div_iff_of_pos_right hms]
  have : (now - b.timestamp : Int) ≤ (now - a.timestamp : Int) := by omega
  exact_mod_cast this

/-- Helper: the time-decay weight vector has one weight per touchpoint. -/
theorem length_timeDecayWeights (tps : List UTMRecord) (h : ℝ) (now : Int) :
    (timeDecayWeights tps h now).length = tps.length := by
  unfold timeDecayWeights
  by_cases he : tps.length = 0 <;> simp [he]

/-- Helper: every normalized time-decay weight is positive. -/
theorem timeDecayWeights_pos (tps : List UTMRecord) (h : ℝ) (now : Int) :
    ∀ w ∈ timeDecayWeights tps h now, 0 < w := by
  intro w hw
  unfold timeDecayWeights at hw
  by_cases he : tps.length = 0
  · simp [he] at hw
  · simp only [he, if_false] at hw
    obtain ⟨r, hr, hrw⟩ := List.mem_map.mp hw
    obtain ⟨tp, _, htp⟩ := List.mem_map.mp hr
    have hrpos : 0 < r := htp ▸ rawDecay_pos h now tp
    have hsum : 0 < (tps.map (rawDecay h now)).sum := by
      refine sum_pos_of_forall_pos _ ?_ ?_
      · simpa [List.map_eq_nil] using he
      · intro x hx
        obtain ⟨tp', _, htp'⟩ := List.mem_map.mp hx
        exact htp' ▸ rawDecay_pos h now tp'
    rw [← hrw]
    positivity

/-- Helper: every normalized time-decay weight is at most 1. -/
theorem timeDecayWeights_le_one (tps : List UTMRecord) (h : ℝ) (now : Int) :
    ∀ w ∈ timeDecayWeights tps h now, w ≤ 1 := by
  intro w hw
  unfold timeDecayWeights at hw
  by_cases he : tps.length = 0
  · simp [he] at hw
  · simp only [he, if_false] at hw
    obtain ⟨r, hr, hrw⟩ := List.mem_map.mp hw
    have hnonneg : ∀ x ∈ tps.map (rawDecay h now), 0 ≤ x := by
      intro x hx
      obtain ⟨tp', _, htp'⟩ := List.mem_map.mp hx
      exact le_of_lt (htp' ▸ rawDecay_pos h now tp')
    have hsum : 0 < (tps.map (rawDecay h now)).sum := by
      refine sum_pos_of_forall_pos _ ?_ ?_
      · simpa [List.map_eq_nil] using he
      · intro x hx
        obtain ⟨tp', _, htp'⟩ := List.mem_map.mp hx
        exact htp' ▸ rawDecay_pos h now tp'
    have hle : r ≤ (tps.map (rawDecay h now)).sum := List.single_le_sum hnonneg r hr
    rw [← hrw]
    exact (div_le_one hsum).mpr hle

/-- Helper: the normalized time-decay weights of a non-empty touchpoint
list sum to exactly 1. -/
theorem timeDecayWeights_sum (tps : List UTMRecord) (h : ℝ) (now : Int)
    (hne : tps ≠ []) : (timeDecayWeights tps h now).sum = 1 := by
  unfold timeDecayWeights
  have he : ¬ tps.length = 0 := by simpa [List.length_eq_zero] using hne
  simp only [he, if_false]
  rw [sum_map_div]
  have hsum : 0 < (tps.map (rawDecay h now)).sum := by
    refine sum_pos_of_forall_pos _ ?_ ?_
    · simpa [List.map_eq_nil] using hne
    · intro x hx
      obtain ⟨tp', _, htp'⟩ := List.mem_map.mp hx
      exact htp' ▸ rawDecay_pos h now tp'
  exact div_self (ne_of_gt hsum)

/-- Helper: one weight per touchpoint under the first-touch model. -/
theorem length_firstTouchWeights (n : Nat) : (firstTouchWeights n).length = n := by
  cases n <;> simp [firstTouchWeights]

/-- Helper: one weight per touchpoint under the last-touch model. -/
theorem length_lastTouchWeights (n : Nat) : (lastTouchWeights n).length = n := by
  cases n <;> simp [lastTouchWeights]

/-- Helper: one weight per touchpoint under the linear model. -/
theorem length_linearWeights (n : Nat) : (linearWeights n).length = n := by
  unfold linearWeights
  by_cases h : n = 0 <;> simp [h]

/-- Helper: the weight vector always has one entry per touchpoint. -/
theorem length_calculateWeights (tps : List UTMRecord) (cfg : AttributionConfig) (now : Int) :
    (calculateWeights tps cfg now).length = tps.length := by
  unfold calculateWeights
  cases h : cfg.model <;>
    simp [length_firstTouchWeights, length_lastTouchWeights, length_linearWeights,
      length_timeDecayWeights]

/-- Helper: every weight any of the four models produces is at most 1. -/
theorem calculateWeights_le_one (tps : List UTMRecord) (cfg : AttributionConfig) (now : Int) :
    ∀ w ∈ calculateWeights tps cfg now, w ≤ 1 := by
  intro w hw
  unfold calculateWeights at hw
  cases h : cfg.model <;> rw [h] at hw
  case first_touch =>
    cases hn : tps.length with
    | zero => rw [hn] at hw; simp [firstTouchWeights] at hw
    | succ m =>
      rw [hn] at hw
      rcases List.mem_cons.mp hw with h1 | h1
      · exact h1.le
      · rw [List.eq_of_mem_replicate h1]; norm_num
  case last_touch =>
    cases hn : tps.length with
    | zero => rw [hn] at hw; simp [lastTouchWeights] at hw
    | succ m =>
      rw [hn] at hw
      rcases List.mem_append.mp hw with h1 | h1
      · rw [List.eq_of_mem_replicate h1]; norm_num
      · rw [List.mem_singleton.mp h1]
  case linear =>
    unfold linearWeights at hw
    by_cases hn : tps.length = 0
    · simp [hn] at hw
    · rw [if_neg hn] at hw
      rw [List.eq_of_mem_replicate hw]
      have h1 : (1 : ℝ) ≤ (tps.length : ℝ) := by
        exact_mod_cast Nat.one_le_iff_ne_zero.mpr hn
      rw [div_le_one (by linarith)]
      exact h1
  case time_decay => exact timeDecayWeights_le_one _ _ _ w hw

/-- Helper: for a non-empty touchpoint list, the strictly positive weights
of any of the four models sum to exactly 1 (zero weights contribute
nothing, and every model's full vector sums to 1). -/
theorem calculateWeights_filter_pos_sum (tps : List UTMRecord) (cfg : AttributionConfig)
    (now : Int) (hne : tps ≠ []) :
    ((calculateWeights tps cfg now).filter (fun w => decide (0 < w))).sum = 1 := by
  have hn : tps.length ≠ 0 := by simpa [List.length_eq_zero] using hne
  unfold calculateWeights
  cases h : cfg.model
  case first_touch =>
    obtain ⟨m, hm⟩ := Nat.exists_eq_succ_of_ne_zero hn
    rw [hm]
    show ((1 :: List.replicate m (0 : ℝ)).filter (fun w => decide (0 < w))).sum = 1
    rw [List.filter_cons, if_pos (by norm_num), filter_pos_replicate_zero]
    simp
  case last_touch =>
    obtain ⟨m, hm⟩ := Nat.exists_eq_succ_of_ne_zero hn
    rw [hm]
    show ((List.replicate m (0 : ℝ) ++ [(1 : ℝ)]).filter (fun w => decide (0 < w))).sum = 1
    rw [List.filter_append, filter_pos_replicate_zero, List.filter_cons,
      if_pos (by norm_num)]
    simp
  case linear =>
    unfold linearWeights
    rw [if_neg hn]
    have hpos : (0 : ℝ) < (tps.length : ℝ) := by
      exact_mod_cast Nat.pos_of_ne_zero hn
    rw [List.filter_eq_self.mpr ?_]
    · rw [List.sum_replicate, nsmul_eq_mul, mul_one_div, div_self (ne_of_gt hpos)]
    · intro a ha
      rw [List.eq_of_mem_replicate ha]
      simpa using by positivity
  case time_decay =>
    rw [List.filter_eq_self.mpr ?_]
    · exact timeDecayWeights_sum tps _ now hne
    · intro a ha
      simpa using timeDecayWeights_pos tps _ now a ha

/-- Helper: the emission loop records exactly the (touchpoint id, weight)
pairs of strictly positive weight, in order. -/
theorem attributionLoop_pairs (cid : String) (did : Option String) (rev : ℝ)
    (model : AttributionModel) (now : Int) (idGen : Nat → String)
    (l : List (UTMRecord × ℝ)) :
    ∀ (i : Nat) (s : DataStore),
      (attributionLoop cid did rev model now idGen l i s).1.map
          (fun e => (e.utmRecordId, e.attributionWeight)) =
        (l.filter (fun p => decide (0 < p.2))).map (fun p => (p.1.id, p.2)) := by
  induction l with
  | nil => intro i s; rfl
  | cons p rest ih =>
    intro i s
    obtain ⟨tp, w⟩ := p
    by_cases h : 0 < w
    · simp [attributionLoop, h, List.filter_cons, mkEvent, ih]
    · simp [attributionLoop, h, List.filter_cons, ih]

/-- Helper: the emitted weight list is the positive filter of the paired
weight list. -/
theorem attributionLoop_weightList (cid : String) (did : Option String) (rev : ℝ)
    (model : AttributionModel) (now : Int) (idGen : Nat → String)
    (l : List (UTMRecord × ℝ)) (i : Nat) (s : DataStore) :
    (attributionLoop cid did rev model now idGen l i s).1.map (·.attributionWeight) =
      (l.filter (fun p => decide (0 < p.2))).map (·.2) := by
  have h := attributionLoop_pairs cid did rev model now idGen l i s
  have h2 := congrArg (List.map Prod.snd) h
  simpa [List.map_map, Function.comp] using h2

/-- Helper: every emitted event has a positive weight drawn from the paired
weight list. -/
theorem attributionLoop_mem (cid : String) (did : Option String) (rev : ℝ)
    (model : AttributionModel) (now : Int) (idGen : Nat → String)
    (l : List (UTMRecord × ℝ)) (i : Nat) (s : DataStore) (e : AttributionEvent)
    (he : e ∈ (attributionLoop cid did rev model now idGen l i s).1) :
    0 < e.attributionWeight ∧ e.attributionWeight ∈ l.map (·.2) := by
  have hw : e.attributionWeight ∈
      (attributionLoop cid did rev model now idGen l i s).1.map (·.attributionWeight) :=
    List.mem_map_of_mem _ he
  rw [attributionLoop_weightList] at hw
  obtain ⟨p, hp, hpe⟩ := List.mem_map.mp hw
  have hf := List.mem_filter.mp hp
  refine ⟨?_, ?_⟩
  · rw [← hpe]; simpa using hf.2
  · rw [← hpe]; exact List.mem_map_of_mem _ hf.1

/-- Helper: a run of the loop over only non-positive weights emits nothing. -/
theorem attributionLoop_nil_of_nonpos (cid : String) (did : Option String) (rev : ℝ)
    (model : AttributionModel) (now : Int) (idGen : Nat → String)
    (l : List (UTMRecord × ℝ)) :
    ∀ (i : Nat) (s : DataStore), (∀ p ∈ l, ¬ 0 < p.2) →
      (attributionLoop cid did rev model now idGen l i s).1 = [] := by
  induction l with
  | nil => intro i s _; rfl
  | cons p rest ih =>
    intro i s hall
    obtain ⟨tp, w⟩ := p
    have hw : ¬ 0 < w := hall (tp, w) (by simp)
    simp only [attributionLoop, if_neg hw]
    exact ih _ _ (fun q hq => hall q (List.mem_cons_of_mem _ hq))

/-- Helper: projecting the positive-filtered zip onto weights equals
filtering the weight list, given matching lengths. -/
theorem zip_filter_pos_snd (tps : List UTMRecord) :
    ∀ (ws : List ℝ), tps.length = ws.length →
      ((tps.zip ws).filter (fun p => decide (0 < p.2))).map (·.2) =
        ws.filter (fun w => decide (0 < w)) := by
  induction tps with
  | nil =>
    intro ws h
    cases ws with
    | nil => rfl
    | cons w wrest => simp at h
  | cons tp rest ih =>
    intro ws h
    cases ws with
    | nil => simp at h
    | cons w wrest =>
      simp only [List.zip_cons_cons, List.filter_cons]
      by_cases hw : 0 < w
      · simp [hw, ih wrest (by simpa using h)]
      · simp [hw, ih wrest (by simpa using h)]

/-- C1: with zero stored touchpoints the conversion computation returns
empty and leaves the store untouched; with `n ≥ 1` touchpoints, under any
model, the emitted events are exactly one per touchpoint of strictly
positive weight (weight-0 touchpoints are skipped), every emitted weight is
positive, and the emitted weights sum to exactly 1. -/
theorem c1_createAttribution_weight_partition (s : DataStore) (cid : String)
    (did : Option String) (rev : ℝ) (cfg : AttributionConfig) (now : Int)
    (idGen : Nat → String) :
    (getUTMRecordsByContact s cid = [] →
      createAttribution s cid did rev cfg now idGen = ([], s)) ∧
    (getUTMRecordsByContact s cid ≠ [] →
      ((createAttribution s cid did rev cfg now idGen).1.map
          (fun e => (e.utmRecordId, e.attributionWeight)) =
        (((getUTMRecordsByContact s cid).zip
            (calculateWeights (getUTMRecordsByContact s cid) cfg now)).filter
              (fun p => decide (0 < p.2))).map (fun p => (p.1.id, p.2)) ∧
      ((createAttribution s cid did rev cfg now idGen).1.map (·.attributionWeight)).sum = 1 ∧
      ∀ e ∈ (createAttribution s cid did rev cfg now idGen).1, 0 < e.attributionWeight)) := by
  constructor
  · intro h
    unfold createAttribution
    rw [if_pos (by simp [h])]
  · intro h
    have hn : ¬ (getUTMRecordsByContact s cid).length = 0 := by
      simpa [List.length_eq_zero] using h
    have hc : createAttribution s cid did rev cfg now idGen =
        attributionLoop cid did rev cfg.model now idGen
          ((getUTMRecordsByContact s cid).zip
            (calculateWeights (getUTMRecordsByContact s cid) cfg now)) 0 s := by
      unfold createAttribution
      rw [if_neg hn]
    refine ⟨?_, ?_, ?_⟩
    · rw [hc]
      exact attributionLoop_pairs cid did rev cfg.model now idGen _ 0 s
    · rw [hc, attributionLoop_weightList,
        zip_filter_pos_snd _ _ (length_calculateWeights _ cfg now).symm]
      exact calculateWeights_filter_pos_sum _ cfg now h
    · intro e he
      rw [hc] at he
      exact (attributionLoop_mem cid did rev cfg.model now idGen _ 0 s e he).1

/-- Witness for C1: the empty store yields no events and an unchanged
store; on the two-touchpoint store the linear-model weights of the emitted
events sum to 1. -/
theorem c1_createAttribution_weight_partition_witness :
    (getUTMRecordsByContact emptyStore "c1" = [] ∧
      createAttribution emptyStore "c1" none 100 ⟨.linear, none⟩ 0 idConst =
        ([], emptyStore)) ∧
    (getUTMRecordsByContact sTouch "c1" ≠ [] ∧
      ((createAttribution sTouch "c1" none 100 ⟨.linear, none⟩ 0 idConst).1.map
        (·.attributionWeight)).sum = 1) := by
  have h1 : getUTMRecordsByContact emptyStore "c1" = [] := rfl
  have h2 : getUTMRecordsByContact sTouch "c1" = [tpPaid, tpSocial] := rfl
  have h2ne : getUTMRecordsByContact sTouch "c1" ≠ [] := by
    rw [h2]; exact List.cons_ne_nil _ _
  refine ⟨⟨h1, ?_⟩, ⟨h2ne, ?_⟩⟩
  · exact (c1_createAttribution_weight_partition emptyStore "c1" none 100
      ⟨.linear, none⟩ 0 idConst).1 h1
  · exact ((c1_createAttribution_weight_partition sTouch "c1" none 100
      ⟨.linear, none⟩ 0 idConst).2 h2ne).2.1

/-- C9: every event emitted by a conversion computation has a weight in the
half-open unit interval `(0, 1]`, under all four models and any touchpoint
timestamps — future-dated touchpoints only inflate the raw time-decay
weights before the normalization by the raw sum, not the emitted weights. -/
theorem c9_event_weight_unit_interval (s : DataStore) (cid : String)
    (did : Option String) (rev : ℝ) (cfg : AttributionConfig) (now : Int)
    (idGen : Nat → String) :
    ∀ e ∈ (createAttribution s cid did rev cfg now idGen).1,
      0 < e.attributionWeight ∧ e.attributionWeight ≤ 1 := by
  intro e he
  unfold createAttribution at he
  by_cases hn : (getUTMRecordsByContact s cid).length = 0
  · rw [if_pos hn] at he
    simp at he
  · rw [if_neg hn] at he
    obtain ⟨hpos, hmem⟩ := attributionLoop_mem cid did rev cfg.model now idGen _ 0 s e he
    refine ⟨hpos, ?_⟩
    obtain ⟨p, hp, hpe⟩ := List.mem_map.mp hmem
    have hws := (List.of_mem_zip hp).2
    rw [← hpe]
    exact calculateWeights_le_one _ cfg now _ hws

/-- C6: under the first-touch model, a conversion over `n ≥ 1` touchpoints
emits exactly one event, of weight 1, for the head of the
ascending-timestamp touchpoint list — the touchpoint with the earliest
timestamp. -/
theorem c6_first_touch_single_earliest (s : DataStore) (cid : String)
    (did : Option String) (rev : ℝ) (cfg : AttributionConfig) (now : Int)
    (idGen : Nat → String) (hm : cfg.model = .first_touch)
    (h : getUTMRecordsByContact s cid ≠ []) :
    ∃ tp0 rest, getUTMRecordsByContact s cid = tp0 :: rest ∧
      (createAttribution s cid did rev cfg now idGen).1 =
        [mkEvent (idGen 0) cid did cfg.model 1 rev now tp0] ∧
      ∀ tp ∈ getUTMRecordsByContact s cid, tp0.timestamp ≤ tp.timestamp := by
  obtain ⟨tp0, rest, htps⟩ : ∃ tp0 rest, getUTMRecordsByContact s cid = tp0 :: rest := by
    rcases hl : getUTMRecordsByContact s cid with _ | ⟨a, l⟩
    · exact absurd hl h
    · exact ⟨a, l, rfl⟩
  have hn : ¬ (getUTMRecordsByContact s cid).length = 0 := by simp [htps]
  have hc : createAttribution s cid did rev cfg now idGen =
      attributionLoop cid did rev cfg.model now idGen
        ((getUTMRecordsByContact s cid).zip
          (calculateWeights (getUTMRecordsByContact s cid) cfg now)) 0 s := by
    unfold createAttribution
    rw [if_neg hn]
  have hw : calculateWeights (tp0 :: rest) cfg now = 1 :: List.replicate rest.length 0 := by
    unfold calculateWeights
    rw [hm]
    rfl
  refine ⟨tp0, rest, htps, ?_, ?_⟩
  · rw [hc, htps, hw]
    simp only [List.zip_cons_cons]
    simp only [attributionLoop]
    rw [if_pos (by norm_num : (0 : ℝ) < 1)]
    have hrest : (attributionLoop cid did rev cfg.model now idGen
        (rest.zip (List.replicate rest.length 0)) (0 + 1)
        (addAttributionEvent s (mkEvent (idGen 0) cid did cfg.model 1 rev now tp0))).1 = [] := by
      apply attributionLoop_nil_of_nonpos
      intro p hp
      have h2 := (List.of_mem_zip hp).2
      rw [List.eq_of_mem_replicate h2]
      norm_num
    simp [hrest]
  · have hsorted : List.Sorted tsLe (getUTMRecordsByContact s cid) :=
      List.sorted_insertionSort tsLe _
    rw [htps] at hsorted
    intro tp htp
    rw [htps] at htp
    rcases List.mem_cons.mp htp with h1 | h1
    · rw [h1]
    · exact (List.sorted_cons.mp hsorted).1 tp h1

/-- C5: for a non-empty touchpoint list and a positive half-life, the
normalized time-decay weights sum to exactly 1 (hence within the 1e-9
floating-point tolerance) and are monotone in recency: a touchpoint with a
timestamp at most another's (older, larger age) receives at most the other's
weight. -/
theorem c5_time_decay_sum_and_monotone (tps : List UTMRecord) (h : ℝ) (now : Int)
    (hne : tps ≠ []) (hp : 0 < h) :
    (timeDecayWeights tps h now).sum = 1 ∧
    ∀ i j, i < tps.length → j < tps.length →
      (tps.map (·.timestamp)).getD i 0 ≤ (tps.map (·.timestamp)).getD j 0 →
      (timeDecayWeights tps h now).getD i 0 ≤ (timeDecayWeights tps h now).getD j 0 := by
  have hlen : ¬ tps.length = 0 := by simpa [List.length_eq_zero] using hne
  have hsumpos : 0 < (tps.map (rawDecay h now)).sum := by
    refine sum_pos_of_forall_pos _ ?_ ?_
    · simpa [List.map_eq_nil_iff] using hne
    · intro x hx
      obtain ⟨tp', _, htp'⟩ := List.mem_map.mp hx
      exact htp' ▸ rawDecay_pos h now tp'
  refine ⟨timeDecayWeights_sum tps h now hne, ?_⟩
  intro i j hi hj hts
  have hwdef : timeDecayWeights tps h now =
      (tps.map (rawDecay h now)).map (· / (tps.map (rawDecay h now)).sum) := by
    unfold timeDecayWeights
    rw [if_neg hlen]
  rw [hwdef]
  have hi2 : i < ((tps.map (rawDecay h now)).map
      (· / (tps.map (rawDecay h now)).sum)).length := by simpa using hi
  have hj2 : j < ((tps.map (rawDecay h now)).map
      (· / (tps.map (rawDecay h now)).sum)).length := by simpa using hj
  rw [List.getD_eq_get _ _ hi2, List.getD_eq_get _ _ hj2]
  rw [List.get_map, List.get_map, List.get_map, List.get_map]
  rw [div_le_div_iff_of_pos_right hsumpos]
  apply rawDecay_mono h hp now
  have hts2 : (tps.get ⟨i, hi⟩).timestamp ≤ (tps.get ⟨j, hj⟩).timestamp := by
    rw [List.getD_eq_get _ _ (by simpa using hi), List.getD_eq_get _ _ (by simpa using hj),
      List.get_map, List.get_map] at hts
    exact hts
  exact hts2

/-- Witness for C5 on a singleton touchpoint list with the default 7-day
half-life. -/
theorem c5_time_decay_sum_and_monotone_witness :
    (([tpPaid] : List UTMRecord) ≠ [] ∧ (0 : ℝ) < 7) ∧
    (timeDecayWeights [tpPaid] 7 0).sum = 1 := by
  refine ⟨⟨List.cons_ne_nil _ _, by norm_num⟩, ?_⟩
  exact (c5_time_decay_sum_and_monotone [tpPaid] 7 0 (List.cons_ne_nil _ _)
    (by norm_num)).1

/-- Witness for C6 on the two-touchpoint store: the single emitted event
points at the earlier touchpoint. -/
theorem c6_first_touch_single_earliest_witness :
    (⟨AttributionModel.first_touch, none⟩ : AttributionConfig).model =
      AttributionModel.first_touch ∧
    getUTMRecordsByContact sTouch "c1" ≠ [] ∧
    ∃ tp0 rest, getUTMRecordsByContact sTouch "c1" = tp0 :: rest ∧
      (createAttribution sTouch "c1" none 100 ⟨.first_touch, none⟩ 5 idConst).1 =
        [mkEvent (idConst 0) "c1" none
          (⟨AttributionModel.first_touch, none⟩ : AttributionConfig).model 1 100 5 tp0] ∧
      ∀ tp ∈ getUTMRecordsByContact sTouch "c1", tp0.timestamp ≤ tp.timestamp := by
  have hne : getUTMRecordsByContact sTouch "c1" ≠ [] := by
    rw [show getUTMRecordsByContact sTouch "c1" = [tpPaid, tpSocial] from rfl]
    exact List.cons_ne_nil _ _
  exact ⟨rfl, hne, c6_first_touch_single_earliest sTouch "c1" none 100
    ⟨.first_touch, none⟩ 5 idConst rfl hne⟩

/-- Witness for C9: the event emitted by a first-touch conversion over the
two-touchpoint store has weight in `(0, 1]`. -/
theorem c9_event_weight_unit_interval_witness :
    mkEvent "new-id" "c1" none .first_touch 1 100 5 tpPaid ∈
      (createAttribution sTouch "c1" none 100 ⟨.first_touch, none⟩ 5 idConst).1 ∧
    0 < (mkEvent "new-id" "c1" none .first_touch 1 100 5 tpPaid).attributionWeight ∧
    (mkEvent "new-id" "c1" none .first_touch 1 100 5 tpPaid).attributionWeight ≤ 1 := by
  have hc : createAttribution sTouch "c1" none 100 ⟨.first_touch, none⟩ 5 idConst =
      attributionLoop "c1" none 100 .first_touch 5 idConst
        [(tpPaid, 1), (tpSocial, 0)] 0 sTouch := rfl
  have hmem : mkEvent "new-id" "c1" none .first_touch 1 100 5 tpPaid ∈
      (createAttribution sTouch "c1" none 100 ⟨.first_touch, none⟩ 5 idConst).1 := by
    rw [hc]
    simp only [attributionLoop]
    rw [if_pos (show (0 : ℝ) < 1 by norm_num)]
    exact List.mem_cons_self _ _
  exact ⟨hmem, c9_event_weight_unit_interval sTouch "c1" none 100
    ⟨.first_touch, none⟩ 5 idConst _ hmem⟩

/-- C10: a contact without existing attribution events gets an empty
recalculation result and an unchanged store — even when the contact has
stored touchpoints, none are turned into events. -/
theorem c10_recalculate_without_events_is_noop (s : DataStore) (cid : String)
    (cfg : AttributionConfig) (now : Int) (idGen : Nat → String)
    (h : getAttributionEventsByContact s cid = []) :
    recalculateAttribution s cid cfg now idGen = ([], s) := by
  unfold recalculateAttribution
  rw [if_pos (by simp [h])]

/-- Witness for C10 on a store that has touchpoints for the contact but no
events. -/
theorem c10_recalculate_without_events_is_noop_witness :
    getAttributionEventsByContact sTouch "c1" = [] ∧
    getUTMRecordsByContact sTouch "c1" ≠ [] ∧
    recalculateAttribution sTouch "c1" ⟨.linear, none⟩ 0 idConst = ([], sTouch) := by
  have h : getAttributionEventsByContact sTouch "c1" = [] := rfl
  have hne : getUTMRecordsByContact sTouch "c1" ≠ [] := by
    rw [show getUTMRecordsByContact sTouch "c1" = [tpPaid, tpSocial] from rfl]
    exact List.cons_ne_nil _ _
  exact ⟨h, hne, c10_recalculate_without_events_is_noop sTouch "c1" ⟨.linear, none⟩
    0 idConst h⟩

/-- C3 counterexample: on two stored half-weight events of revenue 100 the
code's reconstructed revenue is `(100+100)/(0.5+0.5) = 200`, while the
spec's formula `sum(revenue*weight)/sum(weight)` gives 100; the conversion
re-created by `recalculateAttribution` carries revenue 200, not 100. -/
theorem c3_implied_revenue_counterexample :
    ((recalculateAttribution sRecalc "c1" ⟨.first_touch, none⟩ 5 idConst).1.map
      (·.revenue)) = [200] ∧
    specImpliedRevenue (getAttributionEventsByContact sRecalc "c1") = 100 := by
  constructor
  · have hc : recalculateAttribution sRecalc "c1" ⟨.first_touch, none⟩ 5 idConst =
        attributionLoop "c1" none (impliedRevenue [evHalf1, evHalf2]) .first_touch 5 idConst
          [(tpPaid, 1)] 0 sRecalc := rfl
    rw [hc]
    simp only [attributionLoop]
    rw [if_pos (show (0 : ℝ) < 1 by norm_num)]
    simp only [List.map_cons, List.map_nil, mkEvent]
    have : impliedRevenue [evHalf1, evHalf2] = 200 := by
      simp only [impliedRevenue, List.map_cons, List.map_nil, List.sum_cons, List.sum_nil,
        evHalf1, evHalf2]
      norm_num
    rw [this]
  · rw [show getAttributionEventsByContact sRecalc "c1" = [evHalf1, evHalf2] from rfl]
    simp only [specImpliedRevenue, List.map_cons, List.map_nil, List.sum_cons, List.sum_nil,
      evHalf1, evHalf2]
    norm_num

/-- C3 (amended): with at least one existing event, recalculation re-invokes
`createAttribution` on the *unchanged* store (prior events are not deleted
first), passing any found deal id and the implied revenue
`sum(revenue) / sum(weight)` — the numerator is the plain sum of the stored
revenues, not the spec's `sum(revenue*weight)`. -/
theorem c3_recalculate_reinvokes_with_implied_revenue (s : DataStore) (cid : String)
    (cfg : AttributionConfig) (now : Int) (idGen : Nat → String)
    (h : getAttributionEventsByContact s cid ≠ []) :
    recalculateAttribution s cid cfg now idGen =
      createAttribution s cid (findDealId (getAttributionEventsByContact s cid))
        (impliedRevenue (getAttributionEventsByContact s cid)) cfg now idGen := by
  unfold recalculateAttribution
  rw [if_neg (by simpa [List.length_eq_zero] using h)]

/-- Witness for the amended C3 at the two-event store. -/
theorem c3_recalculate_reinvokes_with_implied_revenue_witness :
    getAttributionEventsByContact sRecalc "c1" ≠ [] ∧
    recalculateAttribution sRecalc "c1" ⟨.first_touch, none⟩ 5 idConst =
      createAttribution sRecalc "c1"
        (findDealId (getAttributionEventsByContact sRecalc "c1"))
        (impliedRevenue (getAttributionEventsByContact sRecalc "c1"))
        ⟨.first_touch, none⟩ 5 idConst := by
  have hne : getAttributionEventsByContact sRecalc "c1" ≠ [] := by
    rw [show getAttributionEventsByContact sRecalc "c1" = [evHalf1, evHalf2] from rfl]
    exact List.cons_ne_nil _ _
  exact ⟨hne, c3_recalculate_reinvokes_with_implied_revenue sRecalc "c1"
    ⟨.first_touch, none⟩ 5 idConst hne⟩

/-- C8: CAC is 0 when the summed conversions are 0; ROI and ROAS are 0 when
the total cost is 0; and under the invariant that every stored event
carries positive weight (exactly what the emission loop guarantees), the
apportionment denominator of `getContactMetrics` — a channel's total event
weight — is nonzero whenever its `channelEvents.length > 0` guard lets the
division run, so none of these divisions divides by zero. -/
theorem c8_metrics_division_guards (s : DataStore) (o : MetricsCalculationOptions)
    (parseDate : String → Int) :
    (getConversions s o parseDate = 0 → calculateCAC s o parseDate = 0) ∧
    (getTotalCosts s o = 0 →
      calculateROI s o parseDate = 0 ∧ calculateROAS s o parseDate = 0) ∧
    ((∀ e ∈ s.attributionEvents, 0 < e.attributionWeight) →
      ∀ ch : String, getAttributionEventsByChannel s ch ≠ [] →
        ((getAttributionEventsByChannel s ch).map (·.attributionWeight)).sum ≠ 0) := by
  refine ⟨?_, ?_, ?_⟩
  · intro h
    show (if getConversions s o parseDate = 0 then (0 : ℝ)
      else getTotalCosts s o / getConversions s o parseDate) = 0
    rw [if_pos h]
  · intro h
    constructor
    · show (if getTotalCosts s o = 0 then (0 : ℝ)
        else ((getTotalRevenue s o parseDate - getTotalCosts s o) / getTotalCosts s o) * 100) = 0
      rw [if_pos h]
    · show (if getTotalCosts s o = 0 then (0 : ℝ)
        else getTotalRevenue s o parseDate / getTotalCosts s o) = 0
      rw [if_pos h]
  · intro hinv ch hne
    have hpos : 0 < ((getAttributionEventsByChannel s ch).map (·.attributionWeight)).sum := by
      apply sum_pos_of_forall_pos
      · simpa [List.map_eq_nil_iff] using hne
      · intro x hx
        obtain ⟨e, he, hex⟩ := List.mem_map.mp hx
        have hmem : e ∈ s.attributionEvents := List.mem_of_mem_filter he
        exact hex ▸ hinv e hmem
    exact ne_of_gt hpos

/-- Witness for C8: a store without events gives zero conversions and zero
cost, so CAC, ROI and ROAS all return 0; on a store with one full-weight
event in channel `x`, the invariant holds and the channel's weight sum is
nonzero. -/
theorem c8_metrics_division_guards_witness :
    (getConversions sTouch ⟨"a", "z", none, none, none⟩ (fun _ => 0) = 0 ∧
      calculateCAC sTouch ⟨"a", "z", none, none, none⟩ (fun _ => 0) = 0) ∧
    (getTotalCosts sTouch ⟨"a", "z", none, none, none⟩ = 0 ∧
      calculateROI sTouch ⟨"a", "z", none, none, none⟩ (fun _ => 0) = 0 ∧
      calculateROAS sTouch ⟨"a", "z", none, none, none⟩ (fun _ => 0) = 0) ∧
    ((∀ e ∈ sEvents.attributionEvents, 0 < e.attributionWeight) ∧
      getAttributionEventsByChannel sEvents "x" ≠ [] ∧
      ((getAttributionEventsByChannel sEvents "x").map (·.attributionWeight)).sum ≠ 0) := by
  have hconv : getConversions sTouch ⟨"a", "z", none, none, none⟩ (fun _ => 0) = 0 := rfl
  have hcost : getTotalCosts sTouch ⟨"a", "z", none, none, none⟩ = 0 := rfl
  have hinv : ∀ e ∈ sEvents.attributionEvents, 0 < e.attributionWeight := by
    intro e he
    rw [show sEvents.attributionEvents = [evFull] from rfl] at he
    rw [List.mem_singleton.mp he]
    show (0 : ℝ) < 1
    norm_num
  have hne : getAttributionEventsByChannel sEvents "x" ≠ [] := by
    rw [show getAttributionEventsByChannel sEvents "x" = [evFull] from rfl]
    exact List.cons_ne_nil _ _
  refine ⟨⟨hconv, ?_⟩, ⟨hcost, ?_⟩, hinv, hne, ?_⟩
  · exact (c8_metrics_division_guards sTouch ⟨"a", "z", none, none, none⟩ (fun _ => 0)).1 hconv
  · exact (c8_metrics_division_guards sTouch ⟨"a", "z", none, none, none⟩ (fun _ => 0)).2.1 hcost
  · exact (c8_metrics_division_guards sEvents ⟨"a", "z", none, none, none⟩ (fun _ => 0)).2.2
      hinv "x" hne

end Engine
